import Mathlib

/-!
# Verification of the Optimo-MVP master-schedule pipeline

A shallow embedding of the scheduling pipeline in `program.py` (with the
companion variants `main/program OR-TOOLS.py`, `main/cp.py`, and
`Tune/penalty_tuning.py`), together with theorems settling the frozen
claims about it.

Conventions of the embedding:
* The tabular CSV inputs become lists of structures; string identifiers and
  period codes stay strings, exactly as the scripts handle them.
* pandas lookups of the form `df[df[key] == v].values[0]` become `List.find?`
  (first matching row); Python `set`s become deduplicated lists
  (`List.dedup`) — only membership and sums over them matter.
* The PuLP model of `program.py` is embedded as a decidable satisfaction
  predicate `Satisfies` over an assignment of all decision and slack
  variables; an "accepted solution" is an assignment satisfying every
  emitted constraint.
-/

namespace Optimo

/-- The eight period codes, `periods` in `program.py` (line 32):
two day-tracks R and G with four ordinal slots each. -/
def periodsList : List String :=
  ["R1", "R2", "R3", "R4", "G1", "G2", "G3", "G4"]

/-- One row of `Sections_Information.csv`:
`Section ID, Course ID, Teacher Assigned, # of Seats Available`. -/
structure SectionRow where
  sectionId : String
  courseId : String
  teacherId : String
  seats : Nat
  deriving DecidableEq, Repr

/-- One row of `Teacher_unavailability.csv`: `Teacher ID` together with its
comma-separated `Unavailable Periods` already split into a list. -/
structure UnavailRow where
  teacherId : String
  unavailable : List String
  deriving DecidableEq, Repr

/-- One row of `Student_Info.csv`: `Student ID` and the `SPED` flag. -/
structure StudentRow where
  studentId : String
  sped : Bool
  deriving DecidableEq, Repr

/-- One row of `Student_Preference_Info.csv`: `Student ID` and the
semicolon-separated `Preferred Sections` (course ids) already split. -/
structure PrefRow where
  studentId : String
  requested : List String
  deriving DecidableEq, Repr

/-- The loaded input tables of `program.py` (lines 17-29). The teacher
unavailability table may be empty (missing file loads as an empty frame). -/
structure Input where
  sections : List SectionRow
  teachers : List String
  teacherUnavail : List UnavailRow
  students : List StudentRow
  prefs : List PrefRow
  deriving DecidableEq, Repr

/-- `sections_info[sections_info['Section ID'] == section_id]['Course ID'].values[0]`:
course id of the first section row carrying the given section id
(`program.py` line 257). -/
def courseOf (inp : Input) (sid : String) : String :=
  match inp.sections.find? (fun r => decide (r.sectionId = sid)) with
  | some r => r.courseId
  | none => ""

/-- Teacher unavailability lookup of `program.py` lines 269-276: a teacher
absent from the table (or an empty table) contributes no unavailable
periods; otherwise the first matching row's period list is used. -/
def unavailableOf (inp : Input) (tid : String) : List String :=
  match inp.teacherUnavail.find? (fun r => decide (r.teacherId = tid)) with
  | some r => r.unavailable
  | none => []

/-- The per-course allowed period set of `program.py` lines 259-266:
Medical Career is pinned to `{R1, G1}`, Heroes Teach to `{R2, G2}`, and
every other course may use the full period list. -/
def allowedPeriods (c : String) : List String :=
  if c = "Medical Career" then ["R1", "G1"]
  else if c = "Heroes Teach" then ["R2", "G2"]
  else periodsList

/-- `valid_sections` of `program.py` lines 255-280: for each section row,
the pairs `(sectionId, p)` for every allowed period `p` the assigned
teacher is not unavailable in. -/
def valid_sections (inp : Input) : List (String × String) :=
  inp.sections.flatMap (fun row =>
    ((allowedPeriods (courseOf inp row.sectionId)).filter
        (fun p => decide (p ∉ unavailableOf inp row.teacherId))).map
      (fun p => (row.sectionId, p)))

/-! ## C1 helper lemmas -/

theorem find_row_of_nodup (l : List SectionRow)
    (hnd : (l.map (·.sectionId)).Nodup)
    (row : SectionRow) (hrow : row ∈ l) :
    l.find? (fun r => decide (r.sectionId = row.sectionId)) = some row := by
  induction l with
  | nil => cases hrow
  | cons head tail ih =>
      simp only [List.map_cons, List.nodup_cons, List.mem_map] at hnd
      rcases List.mem_cons.mp hrow with hEq | hTail
      · subst hEq
        simp [List.find?]
      · have hne : head.sectionId ≠ row.sectionId := by
          intro h
          exact hnd.1 ⟨row, hTail, h.symm⟩
        simp only [List.find?, decide_eq_false hne]
        exact ih hnd.2 hTail

theorem courseOf_eq (inp : Input)
    (hnd : (inp.sections.map (·.sectionId)).Nodup)
    (row : SectionRow) (hrow : row ∈ inp.sections) :
    courseOf inp row.sectionId = row.courseId := by
  unfold courseOf
  rw [find_row_of_nodup inp.sections hnd row hrow]

theorem sectionId_injective (inp : Input)
    (hnd : (inp.sections.map (·.sectionId)).Nodup)
    {r₁ r₂ : SectionRow} (h₁ : r₁ ∈ inp.sections) (h₂ : r₂ ∈ inp.sections)
    (h : r₁.sectionId = r₂.sectionId) : r₁ = r₂ :=
  List.inj_on_of_nodup_map hnd h₁ h₂ h

/-- C1: For a well-formed input (unique section ids), the pairs admitted to
the model for a section are exactly the course's allowed periods minus the
assigned teacher's unavailable periods. -/
theorem legal_periods_eq_allowed_minus_unavailable (inp : Input)
    (hnd : (inp.sections.map (·.sectionId)).Nodup)
    (row : SectionRow) (hrow : row ∈ inp.sections) (p : String) :
    (row.sectionId, p) ∈ valid_sections inp ↔
      (p ∈ allowedPeriods row.courseId ∧ p ∉ unavailableOf inp row.teacherId) := by
  unfold valid_sections
  rw [List.mem_flatMap]
  constructor
  · rintro ⟨row', hrow', hmem⟩
    rw [List.mem_map] at hmem
    rcases hmem with ⟨q, hq, hpair⟩
    have hsid : row'.sectionId = row.sectionId := congrArg Prod.fst hpair
    have hp : q = p := congrArg Prod.snd hpair
    subst hp
    have hrr : row' = row := sectionId_injective inp hnd hrow' hrow hsid
    rw [hrr] at hq
    rw [List.mem_filter, courseOf_eq inp hnd row hrow] at hq
    exact ⟨hq.1, of_decide_eq_true hq.2⟩
  · rintro ⟨hall, hun⟩
    refine ⟨row, hrow, ?_⟩
    rw [List.mem_map]
    refine ⟨p, ?_, rfl⟩
    rw [List.mem_filter, courseOf_eq inp hnd row hrow]
    exact ⟨hall, decide_eq_true hun⟩

/-- A small concrete input used to witness C1: one Math section whose
teacher is unavailable in R1 and R2. -/
def c1Input : Input where
  sections := [⟨"S001", "Math", "T001", 30⟩]
  teachers := ["T001"]
  teacherUnavail := [⟨"T001", ["R1", "R2"]⟩]
  students := []
  prefs := []

/-- Witness for C1 at a concrete input: section S001's admitted pairs are
characterised exactly as allowed-minus-unavailable, for period R3. -/
theorem legal_periods_eq_allowed_minus_unavailable_witness :
    ("S001", "R3") ∈ valid_sections c1Input ↔
      ("R3" ∈ allowedPeriods "Math" ∧ "R3" ∉ unavailableOf c1Input "T001") :=
  legal_periods_eq_allowed_minus_unavailable c1Input (by decide)
    ⟨"S001", "Math", "T001", 30⟩ (by decide) "R3"

/-! ## Derived index sets of the Model Builder (`program.py` lines 286-348) -/

/-- The keys of `course_to_sections` (`program.py` lines 287-291), in first
appearance order up to deduplication. -/
def courseIds (inp : Input) : List String :=
  (inp.sections.map (·.courseId)).dedup

/-- `course_to_sections[c]`: the section ids of every row of course `c`,
in row order (`program.py` lines 287-291). -/
def courseSections (inp : Input) (c : String) : List String :=
  (inp.sections.filter (fun r => decide (r.courseId = c))).map (·.sectionId)

/-- The semicolon-split `Preferred Sections` list of a student's preference
row; a student with no preference row contributes nothing (the script would
crash on such input, which the claims do not exercise). -/
def requestedCourses (inp : Input) (sid : String) : List String :=
  match inp.prefs.find? (fun r => decide (r.studentId = sid)) with
  | some r => r.requested
  | none => []

/-- `preprocess_valid_assignments` (`program.py` lines 317-329): the set of
(student, section) pairs for every section of every *known* requested
course. A requested course id absent from `course_to_sections` is silently
skipped. -/
def validAssignments (inp : Input) : List (String × String) :=
  (inp.students.flatMap (fun st =>
    (requestedCourses inp st.studentId).flatMap (fun c =>
      if c ∈ courseIds inp then
        (courseSections inp c).map (fun s => (st.studentId, s))
      else []))).dedup

/-- `requested_sections` (`program.py` lines 299-308): sections of any
course requested by any student, again skipping unknown course ids. -/
def requestedSections (inp : Input) : List String :=
  (inp.students.flatMap (fun st =>
    (requestedCourses inp st.studentId).flatMap (fun c =>
      if c ∈ courseIds inp then courseSections inp c else []))).dedup

/-- `[p for s, p in valid_sections if s == section_id]`: the periods the
model may schedule a given section into. -/
def validPeriodsOf (inp : Input) (sec : String) : List String :=
  ((valid_sections inp).filter (fun sp => decide (sp.1 = sec))).map (·.2)

/-- Medical Career section ids (`program.py` line 440). -/
def mcSections (inp : Input) : List String :=
  (inp.sections.filter (fun r => decide (r.courseId = "Medical Career"))).map (·.sectionId)

/-- Heroes Teach section ids (`program.py` line 441). -/
def htSections (inp : Input) : List String :=
  (inp.sections.filter (fun r => decide (r.courseId = "Heroes Teach"))).map (·.sectionId)

/-- Sports Med section ids (`program.py` line 494). -/
def sportsMedSections (inp : Input) : List String :=
  (inp.sections.filter (fun r => decide (r.courseId = "Sports Med"))).map (·.sectionId)

/-- Substring test on character lists, embedding pandas
`str.contains('Science')` (a plain-substring pattern). -/
def containsSub (l sub : List Char) : Bool :=
  match l with
  | [] => sub.isEmpty
  | _ :: tail => sub.isPrefixOf l || containsSub tail sub

/-- A course id counts as a science course for the prep constraints iff it
contains the substring `Science` (`program.py` line 505). -/
def isScienceCourse (c : String) : Bool :=
  containsSub c.toList "Science".toList

/-- Lexicographic comparison of character lists by code point, embedding
Python's `<` on strings. -/
def charListLt : List Char → List Char → Bool
  | [], [] => false
  | [], _ :: _ => true
  | _ :: _, [] => false
  | a :: as, b :: bs =>
      if a.toNat < b.toNat then true
      else if b.toNat < a.toNat then false
      else charListLt as bs

/-- Python's `course1 < course2` comparison (`program.py` line 516). -/
def strLt (a b : String) : Bool :=
  charListLt a.toList b.toList

/-- The keys of the `science_courses` grouping (`program.py` lines 505-511). -/
def scienceCourses (inp : Input) : List String :=
  ((inp.sections.filter (fun r => isScienceCourse r.courseId)).map (·.courseId)).dedup

/-- The adjacent-period pairs used by the science prep constraints
(`program.py` line 519): consecutive entries of the flat period list, minus
the pairs skipped by the `R2/G2 → R3/G3` filter at line 520-521. Note that
this list is built from the flat eight-element list, so it contains the
cross-track pair `(R4, G1)`. -/
def sciencePrepPairs : List (String × String) :=
  (periodsList.zip (periodsList.drop 1)).filter
    (fun pq => !(decide (pq.1 ∈ ["R2", "G2"]) && decide (pq.2 ∈ ["R3", "G3"])))

/-- The index keys `(s1, s2, p1, p2)` of the science prep violation
variables and constraints actually emitted (`program.py` lines 513-526):
ordered course pairs (string order), their sections, and every
`sciencePrepPairs` entry whose two `z` variables both exist. -/
def scienceViolationKeys (inp : Input) : List (String × String × String × String) :=
  (scienceCourses inp).flatMap (fun c1 =>
    (scienceCourses inp).flatMap (fun c2 =>
      if strLt c1 c2 then
        (courseSections inp c1).flatMap (fun s1 =>
          (courseSections inp c2).flatMap (fun s2 =>
            (sciencePrepPairs.filter (fun pq =>
                decide ((s1, pq.1) ∈ valid_sections inp) &&
                decide ((s2, pq.2) ∈ valid_sections inp))).map
              (fun pq => (s1, s2, pq.1, pq.2))))
      else []))

/-- `[Section ID for Teacher Assigned == teacher]` (`program.py` line 531). -/
def teacherSections (inp : Input) (t : String) : List String :=
  (inp.sections.filter (fun r => decide (r.teacherId = t))).map (·.sectionId)

/-- SPED student ids (`program.py` line 540). -/
def spedStudents (inp : Input) : List String :=
  (inp.students.filter (·.sped)).map (·.studentId)

/-! ## Decision and slack variables

`program.py` lines 351-363 create binary variables `x`, `z`, `y`; lines
391-563 create the nonnegative slack variables. An `Assign` gives a value
to every possible key; the constraints only ever consult keys drawn from
the finite index sets above. The `section_overload` family of
`diagnostic_vars` (lines 366-372 and 485-491) is initialised but never
populated, so it has no keys. -/
structure Assign where
  x : String × String → Bool
  z : String × String → Bool
  y : String × String × String → Bool
  conflict : String × String → Nat
  sports : String → Nat
  science : String × String × String × String → Nat
  sped : String → Nat
  lmax : String → Nat
  lmin : String → Nat

/-- The keys of `diagnostic_vars['section_overload']`: the dictionary is
created empty at `program.py` lines 366-372, re-created empty at lines
485-491, and never written to afterwards. No overload slack variable
exists for any section. -/
def sectionOverloadSlackKeys (_inp : Input) : List String := []

/-! ## The emitted constraints, one checker per constraint family -/

/-- `sum_p y[st, sec, p]` over the section's valid periods. -/
def ySumLink (inp : Input) (a : Assign) (st sec : String) : Nat :=
  ((validPeriodsOf inp sec).map (fun p => (a.y (st, sec, p)).toNat)).sum

/-- Linking constraints `sum_p y == x` (`program.py` lines 381-383). -/
def linkCheck (inp : Input) (a : Assign) : Bool :=
  (validAssignments inp).all (fun sp =>
    decide (ySumLink inp a sp.1 sp.2 = (a.x sp).toNat))

/-- `y ≤ z` constraints (`program.py` lines 386-389). -/
def yleCheck (inp : Input) (a : Assign) : Bool :=
  (validAssignments inp).all (fun sp =>
    (validPeriodsOf inp sp.2).all (fun p =>
      decide ((a.y (sp.1, sp.2, p)).toNat ≤ (a.z (sp.2, p)).toNat)))

/-- The left-hand side of the per-(student, period) constraint: the sum of
`y` over the requested sections available in that period
(`program.py` lines 398-402). -/
def periodConflictSum (inp : Input) (a : Assign) (st p : String) : Nat :=
  (((requestedSections inp).filter (fun sec =>
      decide ((st, sec) ∈ validAssignments inp) &&
      decide ((sec, p) ∈ valid_sections inp))).map
    (fun sec => (a.y (st, sec, p)).toNat)).sum

/-- The per-(student, period) constraint `sum y ≤ 1 + conflict`, a *soft*
constraint with a nonnegative slack (`program.py` lines 393-403). -/
def periodConflictCheck (inp : Input) (a : Assign) : Bool :=
  inp.students.all (fun st =>
    periodsList.all (fun p =>
      decide (periodConflictSum inp a st.studentId p ≤
        1 + a.conflict (st.studentId, p))))

/-- `sum_p z[sec, p]` over the pairs of `valid_sections` with this id. -/
def zSumSection (inp : Input) (a : Assign) (sec : String) : Nat :=
  (((valid_sections inp).filter (fun sp => decide (sp.1 = sec))).map
    (fun sp => (a.z sp).toNat)).sum

/-- Exactly one period per section (`program.py` lines 406-408). -/
def onePeriodCheck (inp : Input) (a : Assign) : Bool :=
  inp.sections.all (fun row => decide (zSumSection inp a row.sectionId = 1))

/-- `x ≤ sum_p z` (`program.py` lines 411-413). -/
def xleCheck (inp : Input) (a : Assign) : Bool :=
  (validAssignments inp).all (fun sp =>
    decide ((a.x sp).toNat ≤ zSumSection inp a sp.2))

/-- `sum_{sec of course} x[st, sec]` over the sections of a course, filtered
to pairs with variables (`program.py` lines 426-428). -/
def xSumCourse (inp : Input) (a : Assign) (st c : String) : Nat :=
  (((courseSections inp c).filter (fun sec =>
      decide ((st, sec) ∈ validAssignments inp))).map
    (fun sec => (a.x (st, sec)).toNat)).sum

/-- Exactly one section per requested course, a hard equality emitted for
every requested course present in `course_to_sections`
(`program.py` lines 417-428). -/
def oneSectionCheck (inp : Input) (a : Assign) : Bool :=
  inp.students.all (fun st =>
    (requestedCourses inp st.studentId).all (fun c =>
      !(decide (c ∈ courseIds inp)) ||
        decide (xSumCourse inp a st.studentId c = 1)))

/-- Sum of `z[sec, p]` over a given list of sections whose pair is a model
variable, at a fixed period. -/
def coverSum (inp : Input) (a : Assign) (secs : List String) (p : String) : Nat :=
  ((secs.filter (fun s => decide ((s, p) ∈ valid_sections inp))).map
    (fun s => (a.z (s, p)).toNat)).sum

/-- Sum of `z[sec, p]` over a list of pin periods for one section
(`program.py` lines 448-457). -/
def pinSum (inp : Input) (a : Assign) (sec : String) (pins : List String) : Nat :=
  ((pins.filter (fun p => decide ((sec, p) ∈ valid_sections inp))).map
    (fun p => (a.z (sec, p)).toNat)).sum

/-- Per-section special-course constraints: every Medical Career section in
R1 or G1, every Heroes Teach section in R2 or G2 (`program.py` 445-466). -/
def specialCheck (inp : Input) (a : Assign) : Bool :=
  (mcSections inp).all (fun s => decide (1 ≤ pinSum inp a s ["R1", "G1"])) &&
  (htSections inp).all (fun s => decide (1 ≤ pinSum inp a s ["R2", "G2"]))

/-- When any Medical Career section exists, at least one must sit in R1 and
at least one in G1 (`program.py` lines 469-474). -/
def mcCoverCheck (inp : Input) (a : Assign) : Bool :=
  if mcSections inp = [] then true
  else
    decide (1 ≤ coverSum inp a (mcSections inp) "R1") &&
    decide (1 ≤ coverSum inp a (mcSections inp) "G1")

/-- When any Heroes Teach section exists, at least one must sit in R2 and
at least one in G2 (`program.py` lines 477-482). -/
def htCoverCheck (inp : Input) (a : Assign) : Bool :=
  if htSections inp = [] then true
  else
    decide (1 ≤ coverSum inp a (htSections inp) "R2") &&
    decide (1 ≤ coverSum inp a (htSections inp) "G2")

/-- Sports Med soft overlap constraints (`program.py` lines 495-501). -/
def sportsCheck (inp : Input) (a : Assign) : Bool :=
  periodsList.all (fun p =>
    decide (coverSum inp a (sportsMedSections inp) p ≤ 1 + a.sports p))

/-- Science prep soft constraints `z₁ + z₂ ≤ 1 + violation`
(`program.py` lines 513-526). -/
def scienceCheck (inp : Input) (a : Assign) : Bool :=
  (scienceViolationKeys inp).all (fun k =>
    match k with
    | (s1, s2, p1, p2) =>
      decide ((a.z (s1, p1)).toNat + (a.z (s2, p2)).toNat ≤
        1 + a.science (s1, s2, p1, p2)))

/-- Hard teacher exclusivity: at most one of a teacher's sections per
period (`program.py` lines 530-537). -/
def teacherCheck (inp : Input) (a : Assign) : Bool :=
  inp.teachers.all (fun t =>
    periodsList.all (fun p =>
      decide (coverSum inp a (teacherSections inp t) p ≤ 1)))

/-- Per-section SPED soft cap `sum x ≤ 12 + sped_overload`
(`program.py` lines 543-549). -/
def spedCheck (inp : Input) (a : Assign) : Bool :=
  inp.sections.all (fun row =>
    decide ((((spedStudents inp).filter (fun st =>
        decide ((st, row.sectionId) ∈ validAssignments inp))).map
      (fun st => (a.x (st, row.sectionId)).toNat)).sum ≤
      12 + a.sped row.sectionId))

/-- Section load used by the balancing constraints
(`program.py` lines 558-560); this is also the enrollment the conflict
analyzer computes (lines 698-702). -/
def loadOf (inp : Input) (a : Assign) (sec : String) : Nat :=
  ((inp.students.filter (fun st =>
      decide ((st.studentId, sec) ∈ validAssignments inp))).map
    (fun st => (a.x (st.studentId, sec)).toNat)).sum

/-- Balancing constraints `L_max ≥ load`, `L_min ≤ load` for courses with
more than one section (`program.py` lines 552-563). -/
def balanceCheck (inp : Input) (a : Assign) : Bool :=
  (courseIds inp).all (fun c =>
    if 2 ≤ (courseSections inp c).length then
      (courseSections inp c).all (fun sec =>
        decide (loadOf inp a sec ≤ a.lmax c) &&
        decide (a.lmin c ≤ loadOf inp a sec))
    else true)

/-- All constraints `program.py` adds to the PuLP problem before solving. -/
def satisfiesB (inp : Input) (a : Assign) : Bool :=
  linkCheck inp a && yleCheck inp a && periodConflictCheck inp a &&
  onePeriodCheck inp a && xleCheck inp a && oneSectionCheck inp a &&
  specialCheck inp a && mcCoverCheck inp a && htCoverCheck inp a &&
  sportsCheck inp a && scienceCheck inp a && teacherCheck inp a &&
  spedCheck inp a && balanceCheck inp a

/-- An accepted solution: an assignment satisfying every emitted
constraint of the model. -/
def Satisfies (inp : Input) (a : Assign) : Prop :=
  satisfiesB inp a = true

/-! ## Extraction lemmas for individual constraint families -/

theorem satisfies_iff (inp : Input) (a : Assign) :
    Satisfies inp a ↔
      linkCheck inp a = true ∧ yleCheck inp a = true ∧
      periodConflictCheck inp a = true ∧ onePeriodCheck inp a = true ∧
      xleCheck inp a = true ∧ oneSectionCheck inp a = true ∧
      specialCheck inp a = true ∧ mcCoverCheck inp a = true ∧
      htCoverCheck inp a = true ∧ sportsCheck inp a = true ∧
      scienceCheck inp a = true ∧ teacherCheck inp a = true ∧
      spedCheck inp a = true ∧ balanceCheck inp a = true := by
  simp only [Satisfies, satisfiesB, Bool.and_eq_true, and_assoc]

theorem periodConflict_of_satisfies {inp : Input} {a : Assign}
    (h : Satisfies inp a) {st : StudentRow} (hst : st ∈ inp.students)
    {p : String} (hp : p ∈ periodsList) :
    periodConflictSum inp a st.studentId p ≤ 1 + a.conflict (st.studentId, p) := by
  have hc := ((satisfies_iff inp a).mp h).2.2.1
  rw [periodConflictCheck, List.all_eq_true] at hc
  have := hc st hst
  rw [List.all_eq_true] at this
  exact of_decide_eq_true (this p hp)

theorem onePeriod_of_satisfies {inp : Input} {a : Assign}
    (h : Satisfies inp a) {row : SectionRow} (hrow : row ∈ inp.sections) :
    zSumSection inp a row.sectionId = 1 := by
  have hc := ((satisfies_iff inp a).mp h).2.2.2.1
  rw [onePeriodCheck, List.all_eq_true] at hc
  exact of_decide_eq_true (hc row hrow)

theorem oneSection_of_satisfies {inp : Input} {a : Assign}
    (h : Satisfies inp a) {st : StudentRow} (hst : st ∈ inp.students)
    {c : String} (hc : c ∈ requestedCourses inp st.studentId)
    (hknown : c ∈ courseIds inp) :
    xSumCourse inp a st.studentId c = 1 := by
  have hx := ((satisfies_iff inp a).mp h).2.2.2.2.2.1
  rw [oneSectionCheck, List.all_eq_true] at hx
  have := hx st hst
  rw [List.all_eq_true] at this
  have hcl := this c hc
  rw [Bool.or_eq_true, Bool.not_eq_true', decide_eq_false_iff_not] at hcl
  rcases hcl with hfalse | htrue
  · exact absurd hknown hfalse
  · exact of_decide_eq_true htrue

theorem mcCover_of_satisfies {inp : Input} {a : Assign}
    (h : Satisfies inp a) (hne : mcSections inp ≠ []) :
    1 ≤ coverSum inp a (mcSections inp) "R1" ∧
    1 ≤ coverSum inp a (mcSections inp) "G1" := by
  have hc := ((satisfies_iff inp a).mp h).2.2.2.2.2.2.2.1
  rw [mcCoverCheck, if_neg hne, Bool.and_eq_true] at hc
  exact ⟨of_decide_eq_true hc.1, of_decide_eq_true hc.2⟩

theorem htCover_of_satisfies {inp : Input} {a : Assign}
    (h : Satisfies inp a) (hne : htSections inp ≠ []) :
    1 ≤ coverSum inp a (htSections inp) "R2" ∧
    1 ≤ coverSum inp a (htSections inp) "G2" := by
  have hc := ((satisfies_iff inp a).mp h).2.2.2.2.2.2.2.2.1
  rw [htCoverCheck, if_neg hne, Bool.and_eq_true] at hc
  exact ⟨of_decide_eq_true hc.1, of_decide_eq_true hc.2⟩

/-- Every pair generated for a known requested course is a valid
assignment: the guard in `preprocess_valid_assignments` admits the full
section list of the course. -/
theorem mem_validAssignments {inp : Input} {st : StudentRow}
    (hst : st ∈ inp.students) {c : String}
    (hc : c ∈ requestedCourses inp st.studentId) (hknown : c ∈ courseIds inp)
    {sec : String} (hsec : sec ∈ courseSections inp c) :
    (st.studentId, sec) ∈ validAssignments inp := by
  rw [validAssignments, List.mem_dedup, List.mem_flatMap]
  refine ⟨st, hst, ?_⟩
  rw [List.mem_flatMap]
  refine ⟨c, hc, ?_⟩
  rw [if_pos hknown, List.mem_map]
  exact ⟨sec, hsec, rfl⟩

/-! ## Concrete instances used by counterexamples and witnesses -/

/-- Two one-section courses taught by different teachers, one student
requesting both. Used for C4's counterexample: both sections can be
scheduled into R1 with the `period_conflict` slack absorbing the clash. -/
def dbInput : Input where
  sections := [⟨"SA", "CourseA", "TA", 10⟩, ⟨"SB", "CourseB", "TB", 10⟩]
  teachers := ["TA", "TB"]
  teacherUnavail := []
  students := [⟨"ST", false⟩]
  prefs := [⟨"ST", ["CourseA", "CourseB"]⟩]

/-- An accepted solution of `dbInput` scheduling both sections into R1 and
enrolling the student in both, with `conflict("ST", R1) = 1`. -/
def dbAssign : Assign where
  x := fun k => decide (k = ("ST", "SA")) || decide (k = ("ST", "SB"))
  z := fun k => decide (k = ("SA", "R1")) || decide (k = ("SB", "R1"))
  y := fun k => decide (k = ("ST", "SA", "R1")) || decide (k = ("ST", "SB", "R1"))
  conflict := fun k => if k = ("ST", "R1") then 1 else 0
  sports := fun _ => 0
  science := fun _ => 0
  sped := fun _ => 0
  lmax := fun _ => 0
  lmin := fun _ => 0

/-- C4 counterexample: `dbAssign` is an accepted solution of `dbInput` in
which student ST is enrolled (`x` and `y` set) in two sections SA and SB
that are both scheduled (`z` set) in period R1 — the per-(student, period)
constraint is soft, not hard, its slack absorbing the double-booking. -/
theorem student_period_not_hard_counterexample :
    Satisfies dbInput dbAssign ∧
    dbAssign.z ("SA", "R1") = true ∧ dbAssign.z ("SB", "R1") = true ∧
    dbAssign.x ("ST", "SA") = true ∧ dbAssign.x ("ST", "SB") = true ∧
    dbAssign.y ("ST", "SA", "R1") = true ∧ dbAssign.y ("ST", "SB", "R1") = true :=
  ⟨by rw [Satisfies]; decide, by decide, by decide, by decide, by decide,
    by decide, by decide⟩

/-- C4 (amended): the per-(student, period) exclusivity is emitted as a
*soft* constraint: every accepted solution satisfies
`sum_sections y[st, sec, p] ≤ 1 + conflict[st, p]` with a nonnegative
slack, so a student may be enrolled in two sections scheduled in the same
period whenever the slack is positive. -/
theorem student_period_soft_constraint (inp : Input) (a : Assign)
    (h : Satisfies inp a) (st : StudentRow) (hst : st ∈ inp.students)
    (p : String) (hp : p ∈ periodsList) :
    periodConflictSum inp a st.studentId p ≤ 1 + a.conflict (st.studentId, p) :=
  periodConflict_of_satisfies h hst hp

/-- Witness for the amended C4 at the concrete double-booked solution. -/
theorem student_period_soft_constraint_witness :
    periodConflictSum dbInput dbAssign "ST" "R1" ≤
      1 + dbAssign.conflict ("ST", "R1") :=
  student_period_soft_constraint dbInput dbAssign (by rw [Satisfies]; decide)
    ⟨"ST", false⟩ (by decide) "R1" (by decide)

/-- C5: for every student and every requested course that has at least one
section in the input (that is, the course id occurs in the sections
table), every accepted solution assigns exactly one of that course's
sections to the student: the indicator sum over the course's sections
is exactly 1, coming from a hard equality constraint. -/
theorem one_section_per_requested_course (inp : Input) (a : Assign)
    (h : Satisfies inp a) (st : StudentRow) (hst : st ∈ inp.students)
    (c : String) (hc : c ∈ requestedCourses inp st.studentId)
    (hknown : c ∈ courseIds inp) :
    ((courseSections inp c).map (fun sec => (a.x (st.studentId, sec)).toNat)).sum = 1 := by
  have hx := oneSection_of_satisfies h hst hc hknown
  have hfilter : (courseSections inp c).filter (fun sec =>
      decide ((st.studentId, sec) ∈ validAssignments inp)) = courseSections inp c :=
    List.filter_eq_self.mpr (fun sec hsec =>
      decide_eq_true (mem_validAssignments hst hc hknown hsec))
  rw [xSumCourse, hfilter] at hx
  exact hx

/-- Witness for C5 at the concrete instance: student ST gets exactly one
CourseA section. -/
theorem one_section_per_requested_course_witness :
    ((courseSections dbInput "CourseA").map
      (fun sec => (dbAssign.x ("ST", sec)).toNat)).sum = 1 :=
  one_section_per_requested_course dbInput dbAssign (by rw [Satisfies]; decide)
    ⟨"ST", false⟩ (by decide) "CourseA" (by decide) (by decide)

/-! ## C10: the both-R1-and-G1 requirement for Medical Career -/

/-- An input with exactly one Medical Career section and a fully available
teacher. -/
def mcInput : Input where
  sections := [⟨"M1", "Medical Career", "T1", 20⟩]
  teachers := ["T1"]
  teacherUnavail := []
  students := []
  prefs := []

/-- An input with two Medical Career sections, used to witness that the
cover constraints are satisfiable with two sections. -/
def mcInput2 : Input where
  sections := [⟨"M1", "Medical Career", "T1", 20⟩, ⟨"M2", "Medical Career", "T2", 20⟩]
  teachers := ["T1", "T2"]
  teacherUnavail := []
  students := []
  prefs := []

/-- An accepted solution of `mcInput2`: M1 in R1, M2 in G1. -/
def mcAssign2 : Assign where
  x := fun _ => false
  z := fun k => decide (k = ("M1", "R1")) || decide (k = ("M2", "G1"))
  y := fun _ => false
  conflict := fun _ => 0
  sports := fun _ => 0
  science := fun _ => 0
  sped := fun _ => 0
  lmax := fun _ => 0
  lmin := fun _ => 0

/-- C10: (i) whenever a Medical Career section exists, every accepted
solution schedules at least one Medical Career section in R1 and at least
one in G1; (ii) the analogous requirement for Heroes Teach in R2 and G2;
(iii) consequently the concrete input with exactly one Medical Career
section admits no accepted solution: its single section would have to
occupy both R1 and G1 while being scheduled in exactly one period. -/
theorem medical_career_cover_requirement :
    (∀ (inp : Input) (a : Assign), Satisfies inp a → mcSections inp ≠ [] →
      1 ≤ coverSum inp a (mcSections inp) "R1" ∧
      1 ≤ coverSum inp a (mcSections inp) "G1") ∧
    (∀ (inp : Input) (a : Assign), Satisfies inp a → htSections inp ≠ [] →
      1 ≤ coverSum inp a (htSections inp) "R2" ∧
      1 ≤ coverSum inp a (htSections inp) "G2") ∧
    (∀ a : Assign, ¬ Satisfies mcInput a) := by
  refine ⟨fun inp a h hne => mcCover_of_satisfies h hne,
    fun inp a h hne => htCover_of_satisfies h hne, fun a h => ?_⟩
  have h1 : zSumSection mcInput a "M1" = 1 :=
    onePeriod_of_satisfies h
      (show (⟨"M1", "Medical Career", "T1", 20⟩ : SectionRow) ∈ mcInput.sections by decide)
  have h2 := mcCover_of_satisfies h (show mcSections mcInput ≠ [] by decide)
  have e1 : zSumSection mcInput a "M1" =
      (a.z ("M1", "R1")).toNat + ((a.z ("M1", "G1")).toNat + 0) := rfl
  have e2 : coverSum mcInput a (mcSections mcInput) "R1" =
      (a.z ("M1", "R1")).toNat + 0 := rfl
  have e3 : coverSum mcInput a (mcSections mcInput) "G1" =
      (a.z ("M1", "G1")).toNat + 0 := rfl
  rw [e1] at h1
  rw [e2] at h2
  rw [e3] at h2
  omega

/-- Witness for C10: with two Medical Career sections the cover
requirement is realised by an accepted solution. -/
theorem medical_career_cover_requirement_witness :
    1 ≤ coverSum mcInput2 mcAssign2 (mcSections mcInput2) "R1" ∧
    1 ≤ coverSum mcInput2 mcAssign2 (mcSections mcInput2) "G1" :=
  medical_career_cover_requirement.1 mcInput2 mcAssign2
    (by rw [Satisfies]; decide) (by decide)

/-! ## C3: seat capacity is reported, never constrained -/

/-- `sections_info[... == section_id]['# of Seats Available'].values[0]`:
seat capacity of the first row with the given section id. -/
def seatsOf (inp : Input) (sec : String) : Nat :=
  match inp.sections.find? (fun r => decide (r.sectionId = sec)) with
  | some r => r.seats
  | none => 0

/-- The section-overload records produced by `analyze_conflicts`
(`program.py` lines 694-734): a record is appended for every section row
whose utilisation `enrollment / capacity` exceeds 1 (with a zero capacity
giving infinite utilisation), carrying `enrollment - capacity`. The
embedding replaces the script's float division by the exact comparison,
which agrees with it at school-sized integer inputs. -/
def overloadRecords (inp : Input) (a : Assign) : List (String × Nat) :=
  (inp.sections.filter (fun row =>
      if 0 < seatsOf inp row.sectionId then
        decide (seatsOf inp row.sectionId < loadOf inp a row.sectionId)
      else true)).map
    (fun row => (row.sectionId, loadOf inp a row.sectionId - seatsOf inp row.sectionId))

/-- A zero-capacity section that one student is forced (by the hard
one-section-per-requested-course equality) to enroll in. -/
def ovInput : Input where
  sections := [⟨"S1", "Alg", "T1", 0⟩]
  teachers := ["T1"]
  teacherUnavail := []
  students := [⟨"STU", false⟩]
  prefs := [⟨"STU", ["Alg"]⟩]

/-- The (unique up to period choice) accepted solution of `ovInput`:
section S1 in R1 with the student enrolled. -/
def ovAssign : Assign where
  x := fun k => decide (k = ("STU", "S1"))
  z := fun k => decide (k = ("S1", "R1"))
  y := fun k => decide (k = ("STU", "S1", "R1"))
  conflict := fun _ => 0
  sports := fun _ => 0
  science := fun _ => 0
  sped := fun _ => 0
  lmax := fun _ => 0
  lmin := fun _ => 0

/-- C3 counterexample: an accepted solution in which section S1's
enrollment (1) strictly exceeds its capacity (0), while the model has no
overload slack variable at all (the `section_overload` family is empty) —
the claimed disjunction fails on both sides. -/
theorem capacity_not_enforced_counterexample :
    Satisfies ovInput ovAssign ∧
    loadOf ovInput ovAssign "S1" = 1 ∧
    seatsOf ovInput "S1" = 0 ∧
    sectionOverloadSlackKeys ovInput = [] :=
  ⟨by rw [Satisfies]; decide, by decide, by decide, by decide⟩

/-- C3 (amended): the model enforces no capacity bound and creates no
overload slack variables; instead the conflict analyzer reports, post hoc,
an overload record for every section whose enrollment exceeds its
capacity, whose recorded excess equals enrollment minus capacity. -/
theorem capacity_reported_not_enforced (inp : Input) (a : Assign) :
    sectionOverloadSlackKeys inp = [] ∧
    (∀ r ∈ overloadRecords inp a, r.2 = loadOf inp a r.1 - seatsOf inp r.1) ∧
    (∀ row ∈ inp.sections,
      seatsOf inp row.sectionId < loadOf inp a row.sectionId →
      (row.sectionId, loadOf inp a row.sectionId - seatsOf inp row.sectionId) ∈
        overloadRecords inp a) := by
  refine ⟨rfl, ?_, ?_⟩
  · intro r hr
    rw [overloadRecords, List.mem_map] at hr
    obtain ⟨row, _, hEq⟩ := hr
    rw [← hEq]
  · intro row hrow hover
    rw [overloadRecords, List.mem_map]
    refine ⟨row, ?_, rfl⟩
    rw [List.mem_filter]
    refine ⟨hrow, ?_⟩
    by_cases hcap : 0 < seatsOf inp row.sectionId
    · rw [if_pos hcap]
      exact decide_eq_true hover
    · rw [if_neg hcap]

/-- Witness for the amended C3: the overloaded zero-capacity section is
reported with excess `1 - 0`. -/
theorem capacity_reported_not_enforced_witness :
    ("S1", loadOf ovInput ovAssign "S1" - seatsOf ovInput "S1") ∈
      overloadRecords ovInput ovAssign :=
  (capacity_reported_not_enforced ovInput ovAssign).2.2
    ⟨"S1", "Alg", "T1", 0⟩ (by decide) (by decide)

/-! ## The pipeline stage order of `program.py` (for C2, C6, C9)

The script's top-level flow is: load data, run the early teacher/science
conflict analyses (each may `sys.exit(1)`), build `valid_sections` and the
whole PuLP model with all constraints (lines 255-566), run
`check_feasibility` and exit if any section has no valid period
(lines 583-603), invoke the solver (line 629), then branch on the solver
status (lines 636-657). -/

/-- `analyze_teacher_conflicts` (`program.py` lines 171-186) returns False
iff some teacher is assigned to both Medical Career and Heroes Teach. -/
def hasTeacherConflict (inp : Input) : Bool :=
  inp.sections.any (fun r1 => inp.sections.any (fun r2 =>
    decide (r1.teacherId = r2.teacherId) &&
    decide (r1.courseId = "Medical Career") &&
    decide (r2.courseId = "Heroes Teach")))

/-- The fixed science course list of `analyze_science_conflicts`
(`program.py` line 190). -/
def scienceListCourses : List String :=
  ["Chemistry", "Biology", "Physics", "AP Biology"]

/-- `analyze_science_conflicts` (`program.py` lines 188-205) returns False
iff some teacher has more than four section rows among the fixed science
courses. -/
def hasScienceOverload (inp : Input) : Bool :=
  (inp.sections.filter (fun r => decide (r.courseId ∈ scienceListCourses))).any
    (fun r => decide (4 <
      ((inp.sections.filter (fun r0 => decide (r0.courseId ∈ scienceListCourses))).filter
        (fun r2 => decide (r2.teacherId = r.teacherId))).length))

/-- `check_feasibility` as called before solving (`program.py`
lines 583-603): the ids of sections with no valid period. -/
def feasibilityIssues (inp : Input) : List String :=
  (inp.sections.filter (fun row =>
    decide (validPeriodsOf inp row.sectionId = []))).map (·.sectionId)

/-- Solver outcome as distinguished by `program.py` lines 636-657:
PuLP status 1 (optimal), -1 (infeasible), 0 (not solved, with or without
an incumbent objective value), and anything else. -/
inductive SolveStatus where
  | optimal
  | infeasible
  | notSolved (hasIncumbent : Bool)
  | other
  deriving DecidableEq, Repr

/-- Observable stages of one `program.py` run. -/
inductive PipeEvent where
  | teacherConflictExit
  | scienceConflictExit
  | modelBuilt
  | feasibilityExit
  | solverInvoked
  | infeasibleExit
  | noSolutionExit
  | statusOtherExit
  | analysisDone
  deriving DecidableEq, Repr

/-- The status branch of `program.py` lines 636-657: optimal and
not-solved-with-incumbent continue to analysis; infeasible,
not-solved-without-incumbent, and unexpected statuses call `sys.exit(1)`. -/
def statusEvents : SolveStatus → List PipeEvent
  | .optimal => [.analysisDone]
  | .infeasible => [.infeasibleExit]
  | .notSolved true => [.analysisDone]
  | .notSolved false => [.noSolutionExit]
  | .other => [.statusOtherExit]

/-- The stage trace of one `program.py` run on a given input with a given
solver outcome, in script order. -/
def pipelineEvents (inp : Input) (st : SolveStatus) : List PipeEvent :=
  if hasTeacherConflict inp then [.teacherConflictExit]
  else if hasScienceOverload inp then [.scienceConflictExit]
  else
    .modelBuilt ::
      (if feasibilityIssues inp ≠ [] then [.feasibilityExit]
       else .solverInvoked :: statusEvents st)

/-! ## The `main/cp.py` variant (for C2)

`solve_schedule` builds per-section period domains (full period list minus
the teacher's unavailability — no course pins), adds an exactly-one
constraint only for sections with a nonempty domain, logs a warning for
the rest, and always proceeds to invoke the CP-SAT solver. -/

/-- The inputs `solve_schedule` consults for domain construction: section
rows as (section id, teacher id), the period name list, and the
unavailability rows. -/
structure CpInput where
  sections : List (String × String)
  periodNames : List String
  unavail : List (String × List String)
  deriving DecidableEq, Repr

/-- `teacher_unavail[t]` (`cp.py` lines 78-84): the dict keeps the last
row for a duplicated teacher id. -/
def cpUnavailOf (ci : CpInput) (t : String) : List String :=
  match ci.unavail.reverse.find? (fun r => decide (r.1 = t)) with
  | some r => r.2
  | none => []

/-- `section_period_domain[sec]` (`cp.py` lines 90-97):
`set(periods_df['period_name']) - unavailable`. -/
def cpDomainOf (ci : CpInput) (t : String) : List String :=
  ci.periodNames.dedup.filter (fun p => decide (p ∉ cpUnavailOf ci t))

/-- The exactly-one constraints emitted at `cp.py` lines 132-143: one per
section with a nonempty domain; an empty-domain section only gets a log
warning and no constraint. -/
def cpExactlyOneConstraints (ci : CpInput) : List (String × List String) :=
  (ci.sections.filter (fun s => !(cpDomainOf ci s.2).isEmpty)).map
    (fun s => (s.1, cpDomainOf ci s.2))

/-- `cp.py` always reaches `solver.Solve(model)` (line 157): no branch of
`solve_schedule` aborts beforehand. -/
def cpSolverInvoked (_ : CpInput) : Bool := true

/-- A section whose teacher is unavailable in every period: its
`legal_periods` set is empty. -/
def noPeriodInput : Input where
  sections := [⟨"S1", "Math", "T1", 10⟩]
  teachers := ["T1"]
  teacherUnavail := [⟨"T1", ["R1", "R2", "R3", "R4", "G1", "G2", "G3", "G4"]⟩]
  students := []
  prefs := []

/-- C2 counterexample: on an input whose only section has an empty
legal-periods set, the `program.py` pipeline *does* construct the full
constraint model first and only then exits at the feasibility check — the
halt does not happen before model construction as claimed. -/
theorem empty_legal_periods_halt_counterexample :
    validPeriodsOf noPeriodInput "S1" = [] ∧
    pipelineEvents noPeriodInput .optimal = [.modelBuilt, .feasibilityExit] ∧
    feasibilityIssues noPeriodInput = ["S1"] :=
  ⟨by decide, by decide, by decide⟩

/-- C2 (amended): (i) in `program.py`, whenever some section has an empty
legal-periods set (and the two earlier teacher/science exits do not fire),
the pipeline flags it and exits *after constructing the model but before
invoking the solver*; (ii) the flagged issue list names every such
section; (iii) in the `cp.py` variant such a section is silently dropped
instead: every emitted exactly-one constraint has a nonempty domain, so an
empty-domain section receives no constraint, and (iv) the solver is
invoked regardless. -/
theorem empty_legal_periods_flagged_before_solve :
    (∀ (inp : Input) (st : SolveStatus), hasTeacherConflict inp = false →
      hasScienceOverload inp = false → feasibilityIssues inp ≠ [] →
      pipelineEvents inp st = [.modelBuilt, .feasibilityExit]) ∧
    (∀ (inp : Input), ∀ row ∈ inp.sections,
      validPeriodsOf inp row.sectionId = [] →
      row.sectionId ∈ feasibilityIssues inp) ∧
    (∀ (ci : CpInput), ∀ e ∈ cpExactlyOneConstraints ci, e.2 ≠ []) ∧
    (∀ ci : CpInput, cpSolverInvoked ci = true) := by
  refine ⟨?_, ?_, ?_, fun _ => rfl⟩
  · intro inp st h1 h2 h3
    rw [pipelineEvents, if_neg (by rw [h1]; exact Bool.false_ne_true),
      if_neg (by rw [h2]; exact Bool.false_ne_true), if_pos h3]
  · intro inp row hrow hempty
    rw [feasibilityIssues, List.mem_map]
    exact ⟨row, List.mem_filter.mpr ⟨hrow, decide_eq_true hempty⟩, rfl⟩
  · intro ci e he
    rw [cpExactlyOneConstraints, List.mem_map] at he
    obtain ⟨s, hs, hEq⟩ := he
    rw [List.mem_filter, Bool.not_eq_true'] at hs
    intro hnil
    rw [← hEq] at hnil
    have hnil' : cpDomainOf ci s.2 = [] := hnil
    have h2 := hs.2
    rw [hnil'] at h2
    simp at h2

/-- Witness for the amended C2 at the concrete input with an all-blocked
teacher. -/
theorem empty_legal_periods_flagged_before_solve_witness :
    pipelineEvents noPeriodInput .other = [.modelBuilt, .feasibilityExit] :=
  empty_legal_periods_flagged_before_solve.1 noPeriodInput .other
    (by decide) (by decide) (by decide)

/-! ## C6: dangling requested course ids are silently skipped -/

/-- A student requesting one known course (Math) and one course id with no
sections at all (Ghost). -/
def ghostInput : Input where
  sections := [⟨"S1", "Math", "T1", 10⟩]
  teachers := ["T1"]
  teacherUnavail := []
  students := [⟨"STU", false⟩]
  prefs := [⟨"STU", ["Math", "Ghost"]⟩]

/-- C6 counterexample: a requested course id resolving to no known course
raises nothing — the pipeline proceeds through model construction to the
solver, and the dangling request is simply absent from the generated
student-section pairs. -/
theorem dangling_course_silently_skipped_counterexample :
    "Ghost" ∈ requestedCourses ghostInput "STU" ∧
    "Ghost" ∉ courseIds ghostInput ∧
    pipelineEvents ghostInput .optimal = [.modelBuilt, .solverInvoked, .analysisDone] ∧
    validAssignments ghostInput = [("STU", "S1")] :=
  ⟨by decide, by decide, by decide, by decide⟩

/-- C6 (amended): a requested course identifier that does not resolve to
any known course is silently skipped, not fatal: (i) every generated
student-section pair comes from a requested course id that *does* resolve
(so dangling ids contribute no variables or constraints), and (ii) the
pipeline never halts on account of the preference table — the only runs
that fail to reach model construction are the teacher-conflict and
science-overload exits. -/
theorem dangling_course_silently_skipped :
    (∀ (inp : Input) (st sec : String), (st, sec) ∈ validAssignments inp →
      ∃ c, c ∈ requestedCourses inp st ∧ c ∈ courseIds inp ∧
        sec ∈ courseSections inp c) ∧
    (∀ (inp : Input) (status : SolveStatus),
      PipeEvent.modelBuilt ∈ pipelineEvents inp status ∨
      pipelineEvents inp status = [.teacherConflictExit] ∨
      pipelineEvents inp status = [.scienceConflictExit]) := by
  constructor
  · intro inp st sec hmem
    rw [validAssignments, List.mem_dedup, List.mem_flatMap] at hmem
    obtain ⟨strow, _, hmem⟩ := hmem
    rw [List.mem_flatMap] at hmem
    obtain ⟨c, hc, hmem⟩ := hmem
    by_cases hknown : c ∈ courseIds inp
    · rw [if_pos hknown, List.mem_map] at hmem
      obtain ⟨s, hs, hEq⟩ := hmem
      have hst : strow.studentId = st := congrArg Prod.fst hEq
      have hsec : s = sec := congrArg Prod.snd hEq
      rw [hst] at hc
      rw [hsec] at hs
      exact ⟨c, hc, hknown, hs⟩
    · rw [if_neg hknown] at hmem
      cases hmem
  · intro inp status
    rw [pipelineEvents]
    by_cases h1 : hasTeacherConflict inp = true
    · rw [if_pos h1]
      exact Or.inr (Or.inl rfl)
    · rw [if_neg h1]
      by_cases h2 : hasScienceOverload inp = true
      · rw [if_pos h2]
        exact Or.inr (Or.inr rfl)
      · rw [if_neg h2]
        exact Or.inl (List.mem_cons_self _ _)

/-- Witness for the amended C6: the single generated pair of `ghostInput`
resolves through the known course Math. -/
theorem dangling_course_silently_skipped_witness :
    ∃ c, c ∈ requestedCourses ghostInput "STU" ∧ c ∈ courseIds ghostInput ∧
      "S1" ∈ courseSections ghostInput c :=
  dangling_course_silently_skipped.1 ghostInput "STU" "S1" (by decide)

/-! ## C7: the science prep adjacency pairs -/

/-- The day-track of a period code: its leading character (R or G). -/
def periodTrack (p : String) : Option Char :=
  p.toList.head?

/-- Two science courses taught by different, fully available teachers. -/
def sciInput : Input where
  sections := [⟨"X1", "Science A", "T1", 10⟩, ⟨"X2", "Science B", "T2", 10⟩]
  teachers := ["T1", "T2"]
  teacherUnavail := []
  students := []
  prefs := []

/-- C7 counterexample: the emitted science-prep constraint keys include
`(X1, X2, R4, G1)`, a pair relating the last R-track period to the first
G-track period — a cross-track pair, contradicting the claim that no
emitted constraint relates periods of different tracks. -/
theorem science_prep_cross_track_counterexample :
    ("X1", "X2", "R4", "G1") ∈ scienceViolationKeys sciInput ∧
    periodTrack "R4" ≠ periodTrack "G1" :=
  ⟨by decide, by decide⟩

/-- Every period pair of `sciencePrepPairs` is either within one track or
is the single cross-track pair `(R4, G1)`. -/
theorem sciencePrepPairs_characterisation :
    ∀ pq ∈ sciencePrepPairs,
      periodTrack pq.1 = periodTrack pq.2 ∨ (pq.1, pq.2) = ("R4", "G1") := by
  decide

/-- C7 (amended): every emitted science-prep constraint relates a pair of
periods consecutive in the flat list `R1..R4, G1..G4` (minus the two
skipped pairs), which is within a single day-track in every case except
the one cross-track pair `(R4, G1)` that the flat-list adjacency also
produces. -/
theorem science_prep_pairs_adjacent (inp : Input) (s1 s2 p1 p2 : String)
    (hmem : (s1, s2, p1, p2) ∈ scienceViolationKeys inp) :
    (p1, p2) ∈ sciencePrepPairs ∧
      (periodTrack p1 = periodTrack p2 ∨ (p1, p2) = ("R4", "G1")) := by
  rw [scienceViolationKeys, List.mem_flatMap] at hmem
  obtain ⟨c1, _, hmem⟩ := hmem
  rw [List.mem_flatMap] at hmem
  obtain ⟨c2, _, hmem⟩ := hmem
  by_cases hlt : strLt c1 c2 = true
  · rw [if_pos hlt, List.mem_flatMap] at hmem
    obtain ⟨t1, _, hmem⟩ := hmem
    rw [List.mem_flatMap] at hmem
    obtain ⟨t2, _, hmem⟩ := hmem
    rw [List.mem_map] at hmem
    obtain ⟨pq, hpq, hEq⟩ := hmem
    have hpq' : pq ∈ sciencePrepPairs := (List.mem_filter.mp hpq).1
    have h1 : pq.1 = p1 := congrArg (fun k => k.2.2.1) hEq
    have h2 : pq.2 = p2 := congrArg (fun k => k.2.2.2) hEq
    rw [← h1, ← h2]
    have htrack := sciencePrepPairs_characterisation pq hpq'
    exact ⟨hpq', htrack⟩
  · rw [if_neg hlt] at hmem
    cases hmem

/-- Witness for the amended C7 at the concrete cross-track key. -/
theorem science_prep_pairs_adjacent_witness :
    ("R4", "G1") ∈ sciencePrepPairs ∧
      (periodTrack "R4" = periodTrack "G1" ∨
        (("R4" : String), ("G1" : String)) = ("R4", "G1")) :=
  science_prep_pairs_adjacent sciInput "X1" "X2" "R4" "G1" (by decide)

/-! ## The Penalty Tuner (`Tune/penalty_tuning.py`, for C8 and C9) -/

/-- A candidate penalty configuration: the eight weights drawn from
`penalty_ranges` (`penalty_tuning.py` lines 17-26). -/
structure Penalties where
  missing_course : Nat
  section_overload : Nat
  medical_career : Nat
  heroes_teach : Nat
  sports_med : Nat
  science_prep : Nat
  sped_overload : Nat
  balance : Nat
  deriving DecidableEq, Repr

/-- The conflict lists returned by one scheduler run and consumed by
`evaluate_penalties` (`penalty_tuning.py` lines 35-40). -/
structure Conflicts where
  missing_courses : List String
  teacher_conflicts : List String
  special_course_issues : List String
  overloaded_sections : List String
  deriving DecidableEq, Repr

/-- The scalar score of `evaluate_penalties` (`penalty_tuning.py`
lines 35-40): a weighted sum of the conflict counts with the fixed weights
1000/800/600/100. The candidate's own penalty weights are accepted but
never read by the scoring expression. -/
def evaluate_penalties_score (_p : Penalties) (c : Conflicts) : Nat :=
  c.missing_courses.length * 1000 +
  c.teacher_conflicts.length * 800 +
  c.special_course_issues.length * 600 +
  c.overloaded_sections.length * 100

/-- `min(r['score'] for r in self.results)` over a nonempty list. -/
def minList : List Nat → Nat
  | [] => 0
  | s :: rest => rest.foldl Nat.min s

/-- The tuner's mutable state: the accumulated result scores
(`self.results`) and the score of the configuration currently persisted by
`save_best_result` (none before the first evaluation). -/
structure TunerState where
  results : List Nat
  saved : Option Nat
  deriving DecidableEq, Repr

/-- One `evaluate_penalties` call followed by `run_tuning`'s append
(`penalty_tuning.py` lines 29-55 and 85-88): the candidate is persisted
exactly when no result exists yet or its score strictly beats the minimum
of all previous scores. -/
def evalOne (st : TunerState) (s : Nat) : TunerState :=
  if st.results = [] ∨ s < minList st.results then
    { results := st.results ++ [s], saved := some s }
  else
    { results := st.results ++ [s], saved := st.saved }

/-- The sequence of persisted best scores observed after each candidate
evaluation, starting from a given state. -/
def savedTrace (st : TunerState) : List Nat → List (Option Nat)
  | [] => []
  | s :: rest => (evalOne st s).saved :: savedTrace (evalOne st s) rest

/-- Prefix minima of a score list, starting from a current best. -/
def prefixMins (cur : Nat) : List Nat → List Nat
  | [] => []
  | s :: rest => Nat.min cur s :: prefixMins (Nat.min cur s) rest

theorem minList_append_single (l : List Nat) (s : Nat) (hne : l ≠ []) :
    minList (l ++ [s]) = Nat.min (minList l) s := by
  cases l with
  | nil => exact absurd rfl hne
  | cons a t =>
      simp only [minList, List.cons_append, List.foldl_append,
        List.foldl_cons, List.foldl_nil]

theorem evalOne_saved (st : TunerState) (s m : Nat)
    (hsaved : st.saved = some m) (hmin : m = minList st.results)
    (hne : st.results ≠ []) :
    (evalOne st s).saved = some (Nat.min m s) ∧
    (evalOne st s).results = st.results ++ [s] ∧
    Nat.min m s = minList (st.results ++ [s]) := by
  rw [evalOne]
  by_cases hc : st.results = [] ∨ s < minList st.results
  · rcases hc with hnil | hlt
    · exact absurd hnil hne
    · rw [if_pos (Or.inr hlt)]
      have hms : Nat.min m s = s := Nat.min_eq_right (le_of_lt (hmin ▸ hlt))
      refine ⟨by rw [hms], rfl, ?_⟩
      rw [minList_append_single st.results s hne, ← hmin, hms]
  · rw [if_neg hc]
    push_neg at hc
    have hge : minList st.results ≤ s := hc.2
    have hms : Nat.min m s = m := Nat.min_eq_left (hmin ▸ hge)
    refine ⟨by rw [hms, hsaved], rfl, ?_⟩
    rw [minList_append_single st.results s hne, ← hmin, hms]

theorem savedTrace_eq_prefixMins (scores : List Nat) :
    ∀ (st : TunerState) (m : Nat), st.saved = some m →
      m = minList st.results → st.results ≠ [] →
      savedTrace st scores = (prefixMins m scores).map some := by
  induction scores with
  | nil => intro st m _ _ _; rfl
  | cons s rest ih =>
      intro st m hsaved hmin hne
      obtain ⟨h1, h2, h3⟩ := evalOne_saved st s m hsaved hmin hne
      rw [savedTrace, prefixMins, List.map_cons, h1]
      congr 1
      exact ih (evalOne st s) (Nat.min m s) h1 (by rw [h2, ← h3])
        (by rw [h2]; simp)

theorem chain_prefixMins (l : List Nat) :
    ∀ cur, List.Chain (fun a b => b ≤ a) cur (prefixMins cur l) := by
  induction l with
  | nil => intro cur; exact List.Chain.nil
  | cons s rest ih =>
      intro cur
      exact List.Chain.cons (Nat.min_le_left cur s) (ih (Nat.min cur s))

theorem filterMap_id_map_some (l : List Nat) :
    (l.map some).filterMap id = l := by
  induction l with
  | nil => rfl
  | cons a t ih => simp [List.filterMap_cons, ih]

/-- C8: (i) across any sequence of evaluated candidate scores, the
sequence of persisted best scores is non-increasing; (ii) a candidate
whose score merely ties the current minimum does not replace the
persisted best (ties broken by first-found); (iii) the score assigned to
a candidate is a fixed weighted sum of the conflict counts and does not
depend on the candidate's own penalty weights. -/
theorem tuner_best_score_monotone :
    (∀ scores : List Nat,
      List.Chain' (fun a b => b ≤ a)
        ((savedTrace ⟨[], none⟩ scores).filterMap id)) ∧
    (∀ (st : TunerState) (s : Nat),
      ¬ (st.results = [] ∨ s < minList st.results) →
      (evalOne st s).saved = st.saved) ∧
    (∀ (p q : Penalties) (c : Conflicts),
      evaluate_penalties_score p c = evaluate_penalties_score q c) := by
  refine ⟨?_, ?_, fun _ _ _ => rfl⟩
  · intro scores
    cases scores with
    | nil => exact List.chain'_nil
    | cons s rest =>
        have h0 : evalOne ⟨[], none⟩ s = ⟨[s], some s⟩ := by
          rw [evalOne, if_pos (Or.inl rfl)]
          rfl
        have htrace : savedTrace (⟨[], none⟩ : TunerState) (s :: rest) =
            some s :: (prefixMins s rest).map some := by
          rw [savedTrace, h0]
          have := savedTrace_eq_prefixMins rest ⟨[s], some s⟩ s rfl (by rfl)
            (by simp)
          rw [this]
        rw [htrace]
        have hfm : (some s :: (prefixMins s rest).map some).filterMap id =
            s :: prefixMins s rest := by
          rw [List.filterMap_cons]
          simp only [id]
          rw [filterMap_id_map_some]
        rw [hfm]
        show List.Chain (fun a b => b ≤ a) s (prefixMins s rest)
        exact chain_prefixMins rest s
  · intro st s hc
    rw [evalOne, if_neg hc]

/-- Witness for the C8 conjuncts that carry hypotheses: a tied score does
not replace the persisted best. -/
theorem tuner_best_score_monotone_witness :
    (evalOne ⟨[3, 7], some 3⟩ 3).saved = some 3 :=
  tuner_best_score_monotone.2.1 ⟨[3, 7], some 3⟩ 3 (by decide)

/-! ## C9: a solver failure inside the tuning loop -/

/-- Whether `program.py`'s status branch (lines 636-657) lets the run
continue or calls `sys.exit(1)`. -/
inductive StatusAction where
  | proceed
  | exitProcess
  deriving DecidableEq, Repr

/-- The status branch of `program.py` lines 636-657: optimal and
timed-out-with-incumbent proceed; infeasible, timed-out-with-no-solution,
and unexpected statuses exit the process. -/
def statusAction : SolveStatus → StatusAction
  | .optimal => .proceed
  | .infeasible => .exitProcess
  | .notSolved true => .proceed
  | .notSolved false => .exitProcess
  | .other => .exitProcess

/-- What one scheduler run inside `evaluate_penalties` produces: either
the conflict report (when the status branch proceeds) or a process exit
that `penalty_tuning.py` does not catch. -/
inductive RunResult where
  | report (c : Conflicts)
  | processExit
  deriving DecidableEq, Repr

/-- A scheduler run behaving as `program.py` does: the conflict report is
only reached when the status branch proceeds. -/
def runScheduler (st : SolveStatus) (c : Conflicts) : RunResult :=
  match statusAction st with
  | .proceed => .report c
  | .exitProcess => .processExit

/-- How a tuning run ends: all candidates evaluated, or the process
terminated mid-loop by an uncaught `sys.exit`. -/
inductive TuneEnd where
  | completed (scores : List Nat)
  | aborted (scoresSoFar : List Nat)
  deriving DecidableEq, Repr

/-- The candidate loop of `run_tuning` (`penalty_tuning.py` lines 85-91):
each candidate's scheduler run either yields conflicts (scored and
appended) or exits the process, ending the loop with no score recorded for
that candidate and the remaining candidates unevaluated. -/
def tuningLoop (f : Penalties → RunResult) : List Penalties → List Nat → TuneEnd
  | [], acc => .completed acc
  | p :: rest, acc =>
      match f p with
      | .processExit => .aborted acc
      | .report c => tuningLoop f rest (acc ++ [evaluate_penalties_score p c])

/-- Two concrete candidate weight vectors. -/
def pA : Penalties := ⟨1000, 50, 600, 600, 400, 300, 200, 25⟩

/-- A second concrete candidate weight vector. -/
def pB : Penalties := ⟨1200, 100, 800, 800, 600, 400, 250, 50⟩

/-- A run function under which the first candidate's solve is infeasible
and the second would succeed with a clean report. -/
def infeasibleFirstRun : Penalties → RunResult :=
  fun p => if p = pA then runScheduler .infeasible ⟨[], [], [], []⟩
           else runScheduler .optimal ⟨[], [], [], []⟩

/-- C9 counterexample: with the first candidate's solve ending Infeasible,
the status branch exits the process, so the tuning loop aborts with *no*
score recorded — it does not record a low score and continue, even though
the second candidate would have solved cleanly. -/
theorem solver_failure_aborts_tuning_counterexample :
    statusAction .infeasible = .exitProcess ∧
    infeasibleFirstRun pB = .report ⟨[], [], [], []⟩ ∧
    tuningLoop infeasibleFirstRun [pA, pB] [] = .aborted [] :=
  ⟨by decide, by decide, by decide⟩

/-- C9 (amended): a solve ending Infeasible — or timed out with no
incumbent solution, or with an unexpected status — makes `program.py`
call `sys.exit(1)`; `evaluate_penalties` does not catch it, so the tuning
loop terminates immediately: the failing candidate gets no score and the
remaining candidates are never evaluated. Only Optimal and
timed-out-with-incumbent runs continue. -/
theorem solver_failure_aborts_tuning :
    (∀ (f : Penalties → RunResult) (p : Penalties) (rest : List Penalties)
      (acc : List Nat), f p = .processExit →
      tuningLoop f (p :: rest) acc = .aborted acc) ∧
    statusAction .infeasible = .exitProcess ∧
    statusAction (.notSolved false) = .exitProcess ∧
    statusAction .other = .exitProcess ∧
    statusAction .optimal = .proceed ∧
    statusAction (.notSolved true) = .proceed := by
  refine ⟨?_, rfl, rfl, rfl, rfl, rfl⟩
  intro f p rest acc hf
  rw [tuningLoop, hf]

/-- Witness for the amended C9 at the concrete infeasible-first run. -/
theorem solver_failure_aborts_tuning_witness :
    tuningLoop infeasibleFirstRun [pA, pB] [] = .aborted [] :=
  solver_failure_aborts_tuning.1 infeasibleFirstRun pA [pB] [] (by decide)

end Optimo
